import Mathlib

/-!
Shallow embedding of the tinyraytracer-rust renderer (`src/main.rs`) and
verification of its specification claims.

Machine `f64` arithmetic is modelled by `ℝ`; `f64::sqrt` by `Real.sqrt`,
`f64::powf` by `Real.rpow`, `f64::clamp` by `min`/`max`.  Rust's `Vec<T>`
becomes `List T`, `Option<f64>` becomes `Option ℝ`, and the `for` loops of
`scene_intersect` and the Phong shading accumulation become `List.foldl`
with named step functions taken verbatim from the loop bodies.
-/

noncomputable section

/-- EPS constant from the source (`const EPS: f64 = 1e-3`). -/
def EPS : ℝ := 1e-3

/-- Recursion bound from the source (`const CAST_RAY_DEPTH: usize = 2`). -/
def CAST_RAY_DEPTH : ℕ := 2

/-- Three-component real vector, `struct Vec3`. -/
structure Vec3 where
  x : ℝ
  y : ℝ
  z : ℝ

/-- RGB pixel with real channels, `struct Pixel`. -/
structure Pixel where
  r : ℝ
  g : ℝ
  b : ℝ

/-- Source `Pixel::to_vec3`. -/
def Pixel.to_vec3 (p : Pixel) : Vec3 := ⟨p.r, p.g, p.b⟩

/-- The camera position, `const ORIGIN: Vec3`. -/
def ORIGIN : Vec3 := ⟨0, 0, 0⟩

/-- Source `Vec3::dot`. -/
def Vec3.dot (v other : Vec3) : ℝ :=
  v.x * other.x + v.y * other.y + v.z * other.z

/-- Source `Vec3::add`. -/
def Vec3.add (v other : Vec3) : Vec3 :=
  ⟨v.x + other.x, v.y + other.y, v.z + other.z⟩

/-- Source `Vec3::sub`. -/
def Vec3.sub (v other : Vec3) : Vec3 :=
  ⟨v.x - other.x, v.y - other.y, v.z - other.z⟩

/-- Source `Vec3::mul` (scaling by a scalar). -/
def Vec3.mul (v : Vec3) (val : ℝ) : Vec3 :=
  ⟨v.x * val, v.y * val, v.z * val⟩

/-- Source `Vec3::norm` (Euclidean length). -/
def Vec3.norm (v : Vec3) : ℝ := Real.sqrt (v.dot v)

/-- Source `Vec3::normalize`. -/
def Vec3.normalize (v : Vec3) : Vec3 := v.mul (1 / v.norm)

/-- Source `Vec3::to_pixel`. -/
def Vec3.to_pixel (v : Vec3) : Pixel := ⟨v.x, v.y, v.z⟩

/-- Source `Vec3::reflect`. -/
def Vec3.reflect (v normal : Vec3) : Vec3 :=
  v.sub (normal.mul (2 * v.dot normal))

/-- Rust `f64::clamp(lo, hi)`: `min(max(x, lo), hi)`. -/
def fclamp (x lo hi : ℝ) : ℝ := min (max x lo) hi

/-- Source `Vec3::refract`.  The source mutates `cosi` and `normal` when
`cosi < 0.0`; the mutation is modelled by the three conditionals, which
all branch on the same initial value `cosi0`. -/
def Vec3.refract (v : Vec3) (normal : Vec3) (refractive_index : ℝ) : Vec3 :=
  let cosi0 := -(fclamp (v.dot normal) (-1) 1)
  let cosi := if cosi0 < 0 then -cosi0 else cosi0
  let n := if cosi0 < 0 then normal.mul (-1) else normal
  let eta := if cosi0 < 0 then refractive_index else 1 / refractive_index
  let k := 1 - eta ^ 2 * (1 - cosi ^ 2)
  if k < 0 then ⟨0, 0, 0⟩
  else (v.mul eta).add (n.mul (eta * cosi - Real.sqrt k))

/-- Source `struct Material`: the albedo array `[f64; 4]` becomes `Fin 4 → ℝ`. -/
structure Material where
  diffuse_color : Vec3
  albedo : Fin 4 → ℝ
  specular_exponent : ℝ
  refractive_index : ℝ

/-- Source `struct Sphere`. -/
structure Sphere where
  center : Vec3
  radius : ℝ
  material : Material

/-- Source `struct Light`. -/
structure Light where
  position : Vec3
  intensity : ℝ

/-- Source `Sphere::ray_intersect`: geometric quadratic sphere test. -/
def Sphere.ray_intersect (s : Sphere) (orig dir : Vec3) : Option ℝ :=
  let l := s.center.sub orig
  let tca := l.dot dir
  let d2 := l.dot l - tca * tca
  let r2 := s.radius * s.radius
  if d2 > r2 then none
  else
    let thc := Real.sqrt (r2 - d2)
    let t0 := tca - thc
    let t1 := tca + thc
    if t0 ≥ 0 then some t0
    else if t1 ≥ 0 then some t1
    else none

/-- Loop body of the `for sphere in spheres` scan in `scene_intersect`:
keeps the pair with the strictly smallest distance. -/
def scene_intersect_step (orig dir : Vec3) (acc : Option (ℝ × Sphere))
    (sphere : Sphere) : Option (ℝ × Sphere) :=
  match sphere.ray_intersect orig dir with
  | none => acc
  | some distance =>
    match acc with
    | none => some (distance, sphere)
    | some (old_distance, old_sphere) =>
      if distance < old_distance then some (distance, sphere)
      else some (old_distance, old_sphere)

/-- The `closest_sphere` accumulator of `scene_intersect` after the scan. -/
def closest_sphere (orig dir : Vec3) (spheres : List Sphere) :
    Option (ℝ × Sphere) :=
  spheres.foldl (scene_intersect_step orig dir) none

/-- Source `scene_intersect`: nearest hit point, outward normal and material. -/
def scene_intersect (orig dir : Vec3) (spheres : List Sphere) :
    Option (Vec3 × Vec3 × Material) :=
  match closest_sphere orig dir spheres with
  | none => none
  | some (distance, sphere) =>
    let hit := orig.add (dir.mul distance)
    let normal := (hit.sub sphere.center).normalize
    some (hit, normal, sphere.material)

/-- Source `const BACKGROUND_COLOR` from `cast_ray`. -/
def BACKGROUND_COLOR : Pixel := ⟨0.2, 0.7, 0.8⟩

/-- Loop body of the `for light in lights` Phong accumulation in
`cast_ray`; `acc` is the pair (diffuse intensity `dli`, specular
intensity `sli`).  The occluded `continue` leaves `acc` unchanged. -/
def shade_step (spheres : List Sphere) (dir hit normal hit_inside hit_outside : Vec3)
    (specular_exponent : ℝ) (acc : ℝ × ℝ) (light : Light) : ℝ × ℝ :=
  let light_vec := light.position.sub hit
  let light_dir := light_vec.normalize
  let light_normal_projection := light_dir.dot normal
  let shadow_orig := if light_normal_projection < 0 then hit_inside else hit_outside
  let contrib : ℝ × ℝ :=
    (acc.1 + light.intensity * max light_normal_projection 0,
     acc.2 + light.intensity *
       Real.rpow (max ((light_dir.reflect normal).dot dir) 0) specular_exponent)
  match scene_intersect shadow_orig light_dir spheres with
  | some (shadow_hit, _, _) =>
    if light_vec.norm > (shadow_hit.sub shadow_orig).norm then acc else contrib
  | none => contrib

/-- Source `cast_ray` with the recursion bound `CAST_RAY_DEPTH` generalised to a
parameter `max_depth` (needed to express depth-bound independence); the
source function is `cast_ray = cast_ray_d CAST_RAY_DEPTH`. -/
def cast_ray_d (max_depth : ℕ) (depth : ℕ) (orig dir : Vec3)
    (spheres : List Sphere) (lights : List Light) : Pixel :=
  if _h : depth > max_depth then BACKGROUND_COLOR
  else
    match scene_intersect orig dir spheres with
    | none => BACKGROUND_COLOR
    | some (hit, normal, material) =>
      let perturb := normal.mul EPS
      let hit_outside := hit.add perturb
      let hit_inside := hit.sub perturb
      let reflect_color :=
        let reflect_dir := dir.reflect normal
        let reflect_orig :=
          if reflect_dir.dot normal < 0 then hit_inside else hit_outside
        (cast_ray_d max_depth (depth + 1) reflect_orig reflect_dir spheres lights).to_vec3
      let refract_color :=
        let refract_dir := dir.refract normal material.refractive_index
        let refract_orig :=
          if refract_dir.dot normal < 0 then hit_inside else hit_outside
        (cast_ray_d max_depth (depth + 1) refract_orig refract_dir spheres lights).to_vec3
      let s := lights.foldl
        (shade_step spheres dir hit normal hit_inside hit_outside
          material.specular_exponent) (0, 0)
      ((((material.diffuse_color.mul (s.1 * material.albedo 0)).add
          ((Vec3.mk 1 1 1).mul (s.2 * material.albedo 1))).add
          (reflect_color.mul (material.albedo 2))).add
          (refract_color.mul (material.albedo 3))).to_pixel
termination_by max_depth + 1 - depth
decreasing_by all_goals omega

/-- Source `cast_ray` as in the source, with the fixed bound `CAST_RAY_DEPTH`. -/
def cast_ray (depth : ℕ) (orig dir : Vec3)
    (spheres : List Sphere) (lights : List Light) : Pixel :=
  cast_ray_d CAST_RAY_DEPTH depth orig dir spheres lights

/-- Fuel-indexed operational evaluator for `cast_ray`: each level of the
Rust call tree consumes one unit of fuel, and exhausting the fuel yields
`none`.  Used to state that the recursion terminates within the depth
budget. -/
def cast_ray_fuel (fuel : ℕ) (depth : ℕ) (orig dir : Vec3)
    (spheres : List Sphere) (lights : List Light) : Option Pixel :=
  match fuel with
  | 0 => none
  | fuel + 1 =>
    if depth > CAST_RAY_DEPTH then some BACKGROUND_COLOR
    else
      match scene_intersect orig dir spheres with
      | none => some BACKGROUND_COLOR
      | some (hit, normal, material) =>
        let perturb := normal.mul EPS
        let hit_outside := hit.add perturb
        let hit_inside := hit.sub perturb
        let reflect_dir := dir.reflect normal
        let reflect_orig :=
          if reflect_dir.dot normal < 0 then hit_inside else hit_outside
        let refract_dir := dir.refract normal material.refractive_index
        let refract_orig :=
          if refract_dir.dot normal < 0 then hit_inside else hit_outside
        (cast_ray_fuel fuel (depth + 1) reflect_orig reflect_dir spheres lights).bind
          fun rc =>
        (cast_ray_fuel fuel (depth + 1) refract_orig refract_dir spheres lights).bind
          fun rfc =>
        let s := lights.foldl
          (shade_step spheres dir hit normal hit_inside hit_outside
            material.specular_exponent) (0, 0)
        some (((((material.diffuse_color.mul (s.1 * material.albedo 0)).add
            ((Vec3.mk 1 1 1).mul (s.2 * material.albedo 1))).add
            (rc.to_vec3.mul (material.albedo 2))).add
            (rfc.to_vec3.mul (material.albedo 3))).to_pixel)

/-- Rust `f64` truncation toward zero (the rounding mode of `as`-casts). -/
def rust_trunc (x : ℝ) : ℤ := if 0 ≤ x then ⌊x⌋ else ⌈x⌉

/-- Rust `expr as u8` for a float operand: modelled from the Rust
reference semantics of numeric casts, which truncate toward zero and
saturate to the target range (here `[0, 255]`). -/
def f64_as_u8 (x : ℝ) : ℤ := min 255 (max 0 (rust_trunc x))

/-- The per-pixel byte conversion in `render`:
`[(pixel.r * 255.0) as u8, (pixel.g * 255.0) as u8, (pixel.b * 255.0) as u8]`. -/
def Pixel.to_bytes (p : Pixel) : ℤ × ℤ × ℤ :=
  (f64_as_u8 (p.r * 255), f64_as_u8 (p.g * 255), f64_as_u8 (p.b * 255))

/-- The point `orig + dir*t` lies on the sphere surface (squared-distance
form, avoiding the square root). -/
def sphere_hit_at (s : Sphere) (orig dir : Vec3) (t : ℝ) : Prop :=
  ((orig.add (dir.mul t)).sub s.center).dot ((orig.add (dir.mul t)).sub s.center) =
    s.radius * s.radius

/-- Example material (diffuse only: albedo slots 2 and 3 are zero). -/
def ex_mat : Material := ⟨⟨0.3, 0.1, 0.1⟩, ![0.9, 0.1, 0, 0], 10, 1⟩

/-- Example sphere straight ahead of the camera. -/
def ex_sphere : Sphere := ⟨⟨0, 0, -5⟩, 1, ex_mat⟩

/-- Second example material, distinct from `ex_mat`. -/
def ex_mat2 : Material := ⟨⟨0.4, 0.4, 0.3⟩, ![0.6, 0.3, 0, 0], 50, 1⟩

/-- A sphere coincident with `ex_sphere` but with a different material,
so both intersect a central ray at exactly the same distance. -/
def ex_sphere2 : Sphere := ⟨⟨0, 0, -5⟩, 1, ex_mat2⟩

/-- Unit direction looking down the negative z axis. -/
def ex_dir : Vec3 := ⟨0, 0, -1⟩

/-- Purely reflective material: albedo `[0, 0, 1, 0]`. -/
def mirror_mat : Material := ⟨⟨1, 1, 1⟩, ![0, 0, 1, 0], 1425, 1⟩

/-- Mirror sphere used to exhibit a surface hit whose shaded color is
exactly the background color. -/
def mirror_sphere : Sphere := ⟨⟨0, 0, -10⟩, 1, mirror_mat⟩

/-- Example light directly above the example hit point. -/
def ex_light : Light := ⟨⟨0, 0, 5⟩, 1⟩

end

/-! ## Helper lemmas -/

theorem vec_mul_zero (v : Vec3) : v.mul 0 = ⟨0, 0, 0⟩ := by
  simp [Vec3.mul]

theorem step_eq_none_iff (orig dir : Vec3) (acc : Option (ℝ × Sphere)) (a : Sphere) :
    scene_intersect_step orig dir acc a = none ↔
      acc = none ∧ a.ray_intersect orig dir = none := by
  unfold scene_intersect_step
  cases ha : a.ray_intersect orig dir with
  | none => simp
  | some d =>
    dsimp only
    cases acc with
    | none => simp
    | some p =>
      obtain ⟨d0, s0⟩ := p
      dsimp only
      constructor
      · intro hh
        split at hh <;> simp_all
      · rintro ⟨h1, _⟩
        cases h1

theorem step_eq_of_none (orig dir : Vec3) (acc : Option (ℝ × Sphere)) (a : Sphere)
    (ha : a.ray_intersect orig dir = none) :
    scene_intersect_step orig dir acc a = acc := by
  unfold scene_intersect_step
  rw [ha]

theorem step_of_some_none (orig dir : Vec3) (a : Sphere) (da : ℝ)
    (ha : a.ray_intersect orig dir = some da) :
    scene_intersect_step orig dir none a = some (da, a) := by
  unfold scene_intersect_step
  rw [ha]

theorem step_of_some_some (orig dir : Vec3) (a : Sphere) (da d0 : ℝ) (s0 : Sphere)
    (ha : a.ray_intersect orig dir = some da) :
    scene_intersect_step orig dir (some (d0, s0)) a =
      if da < d0 then some (da, a) else some (d0, s0) := by
  unfold scene_intersect_step
  rw [ha]

theorem closest_loop_none (orig dir : Vec3) :
    ∀ (l : List Sphere) (acc : Option (ℝ × Sphere)),
      List.foldl (scene_intersect_step orig dir) acc l = none ↔
        acc = none ∧ ∀ s ∈ l, s.ray_intersect orig dir = none := by
  intro l
  induction l with
  | nil => intro acc; simp
  | cons a l ih =>
    intro acc
    rw [List.foldl_cons, ih, step_eq_none_iff]
    constructor
    · rintro ⟨⟨h1, h2⟩, h3⟩
      refine ⟨h1, ?_⟩
      intro s hs
      rcases List.mem_cons.mp hs with rfl | hs
      · exact h2
      · exact h3 s hs
    · rintro ⟨h1, h2⟩
      exact ⟨⟨h1, h2 a (List.mem_cons_self a l)⟩,
        fun s hs => h2 s (List.mem_cons_of_mem a hs)⟩

theorem closest_loop_some (orig dir : Vec3) :
    ∀ (l : List Sphere) (acc : Option (ℝ × Sphere)) (d : ℝ) (s : Sphere),
      List.foldl (scene_intersect_step orig dir) acc l = some (d, s) →
      (acc = some (d, s) ∨ (s ∈ l ∧ s.ray_intersect orig dir = some d)) ∧
      (∀ d0 s0, acc = some (d0, s0) → d ≤ d0) ∧
      (∀ s' ∈ l, ∀ d', s'.ray_intersect orig dir = some d' → d ≤ d') := by
  intro l
  induction l with
  | nil =>
    intro acc d s h
    simp only [List.foldl_nil] at h
    subst h
    refine ⟨Or.inl rfl, ?_, ?_⟩
    · intro d0 s0 h0
      simp only [Option.some.injEq, Prod.mk.injEq] at h0
      exact le_of_eq h0.1
    · intro s' hs'
      simp at hs'
  | cons a l ih =>
    intro acc d s h
    rw [List.foldl_cons] at h
    obtain ⟨hm, hbnd, hrest⟩ := ih (scene_intersect_step orig dir acc a) d s h
    cases ha : a.ray_intersect orig dir with
    | none =>
      rw [step_eq_of_none orig dir acc a ha] at hm hbnd
      refine ⟨?_, hbnd, ?_⟩
      · rcases hm with hm | hm
        · exact Or.inl hm
        · exact Or.inr ⟨List.mem_cons_of_mem _ hm.1, hm.2⟩
      · intro s' hs' d' hd'
        rcases List.mem_cons.mp hs' with rfl | hs'
        · rw [ha] at hd'; cases hd'
        · exact hrest s' hs' d' hd'
    | some da =>
      cases acc with
      | none =>
        rw [step_of_some_none orig dir a da ha] at hm hbnd
        have hdda : d ≤ da := hbnd da a rfl
        refine ⟨?_, ?_, ?_⟩
        · rcases hm with hm | hm
          · simp only [Option.some.injEq, Prod.mk.injEq] at hm
            obtain ⟨rfl, rfl⟩ := hm
            exact Or.inr ⟨List.mem_cons_self a l, ha⟩
          · exact Or.inr ⟨List.mem_cons_of_mem _ hm.1, hm.2⟩
        · intro d0 s0 h0
          cases h0
        · intro s' hs' d' hd'
          rcases List.mem_cons.mp hs' with rfl | hs'
          · rw [ha] at hd'
            simp only [Option.some.injEq] at hd'
            subst hd'
            exact hdda
          · exact hrest s' hs' d' hd'
      | some p =>
        obtain ⟨d0, s0⟩ := p
        rw [step_of_some_some orig dir a da d0 s0 ha] at hm hbnd
        by_cases hlt : da < d0
        · rw [if_pos hlt] at hm hbnd
          have hdda : d ≤ da := hbnd da a rfl
          refine ⟨?_, ?_, ?_⟩
          · rcases hm with hm | hm
            · simp only [Option.some.injEq, Prod.mk.injEq] at hm
              obtain ⟨rfl, rfl⟩ := hm
              exact Or.inr ⟨List.mem_cons_self a l, ha⟩
            · exact Or.inr ⟨List.mem_cons_of_mem _ hm.1, hm.2⟩
          · intro d0' s0' h0
            simp only [Option.some.injEq, Prod.mk.injEq] at h0
            obtain ⟨rfl, rfl⟩ := h0
            exact le_of_lt (lt_of_le_of_lt hdda hlt)
          · intro s' hs' d' hd'
            rcases List.mem_cons.mp hs' with rfl | hs'
            · rw [ha] at hd'
              simp only [Option.some.injEq] at hd'
              subst hd'
              exact hdda
            · exact hrest s' hs' d' hd'
        · rw [if_neg hlt] at hm hbnd
          have hdd0 : d ≤ d0 := hbnd d0 s0 rfl
          refine ⟨?_, ?_, ?_⟩
          · rcases hm with hm | hm
            · exact Or.inl hm
            · exact Or.inr ⟨List.mem_cons_of_mem _ hm.1, hm.2⟩
          · intro d0' s0' h0
            simp only [Option.some.injEq, Prod.mk.injEq] at h0
            obtain ⟨rfl, rfl⟩ := h0
            exact hdd0
          · intro s' hs' d' hd'
            rcases List.mem_cons.mp hs' with rfl | hs'
            · rw [ha] at hd'
              simp only [Option.some.injEq] at hd'
              subst hd'
              exact le_trans hdd0 (le_of_not_lt hlt)
            · exact hrest s' hs' d' hd'

theorem closest_sphere_none_iff (orig dir : Vec3) (spheres : List Sphere) :
    closest_sphere orig dir spheres = none ↔
      ∀ s ∈ spheres, s.ray_intersect orig dir = none := by
  unfold closest_sphere
  rw [closest_loop_none]
  simp

theorem scene_intersect_none_iff (orig dir : Vec3) (spheres : List Sphere) :
    scene_intersect orig dir spheres = none ↔
      closest_sphere orig dir spheres = none := by
  unfold scene_intersect
  cases hc : closest_sphere orig dir spheres with
  | none => simp
  | some p =>
    obtain ⟨d, s⟩ := p
    simp

theorem scene_intersect_material_mem (orig dir : Vec3) (spheres : List Sphere)
    (hit normal : Vec3) (material : Material)
    (h : scene_intersect orig dir spheres = some (hit, normal, material)) :
    ∃ s ∈ spheres, material = s.material := by
  unfold scene_intersect at h
  cases hc : closest_sphere orig dir spheres with
  | none =>
    rw [hc] at h
    cases h
  | some p =>
    obtain ⟨d, s⟩ := p
    rw [hc] at h
    dsimp only at h
    have hmem : s ∈ spheres := by
      have h2 := hc
      unfold closest_sphere at h2
      rcases (closest_loop_some orig dir spheres none d s h2).1 with h3 | h3
      · exact absurd h3 (by simp)
      · exact h3.1
    simp only [Option.some.injEq, Prod.mk.injEq] at h
    exact ⟨s, hmem, h.2.2.symm⟩

theorem sphere_hit_at_iff (s : Sphere) (orig dir : Vec3) (hdir : dir.dot dir = 1) (u : ℝ) :
    sphere_hit_at s orig dir u ↔
      (u - (s.center.sub orig).dot dir) ^ 2 =
        s.radius * s.radius -
          ((s.center.sub orig).dot (s.center.sub orig) -
            (s.center.sub orig).dot dir * (s.center.sub orig).dot dir) := by
  obtain ⟨ox, oy, oz⟩ := orig
  obtain ⟨dx, dy, dz⟩ := dir
  obtain ⟨⟨cx, cy, cz⟩, r, m⟩ := s
  simp only [sphere_hit_at, Vec3.dot, Vec3.add, Vec3.sub, Vec3.mul] at *
  constructor
  · intro h
    linear_combination h - u ^ 2 * hdir
  · intro h
    linear_combination h + u ^ 2 * hdir

/-! ## Concrete-scene evaluation lemmas (for witnesses) -/

theorem ex_dir_unit : ex_dir.dot ex_dir = 1 := by
  norm_num [ex_dir, Vec3.dot]

theorem ex_ray : ex_sphere.ray_intersect ORIGIN ex_dir = some 4 := by
  simp only [Sphere.ray_intersect, ex_sphere, ORIGIN, ex_dir, Vec3.sub, Vec3.dot]
  norm_num [Real.sqrt_one]

theorem ex_ray2 : ex_sphere2.ray_intersect ORIGIN ex_dir = some 4 := by
  simp only [Sphere.ray_intersect, ex_sphere2, ORIGIN, ex_dir, Vec3.sub, Vec3.dot]
  norm_num [Real.sqrt_one]

theorem ex_closest : closest_sphere ORIGIN ex_dir [ex_sphere] = some (4, ex_sphere) := by
  simp only [closest_sphere, List.foldl, scene_intersect_step, ex_ray]

theorem ex_scene : scene_intersect ORIGIN ex_dir [ex_sphere] =
    some (⟨0, 0, -4⟩, ⟨0, 0, 1⟩, ex_mat) := by
  simp only [scene_intersect, ex_closest]
  have h1 : ORIGIN.add (ex_dir.mul 4) = ⟨0, 0, -4⟩ := by
    simp only [ORIGIN, ex_dir, Vec3.add, Vec3.mul]
    norm_num
  rw [h1]
  have h2 : (Vec3.sub ⟨0, 0, -4⟩ ex_sphere.center).normalize = ⟨0, 0, 1⟩ := by
    simp only [ex_sphere, Vec3.sub, Vec3.normalize, Vec3.norm, Vec3.dot, Vec3.mul]
    norm_num [Real.sqrt_one]
  rw [h2]
  simp [ex_sphere]

theorem mirror_ray : mirror_sphere.ray_intersect ORIGIN ex_dir = some 9 := by
  simp only [Sphere.ray_intersect, mirror_sphere, ORIGIN, ex_dir, Vec3.sub, Vec3.dot]
  norm_num [Real.sqrt_one]

theorem mirror_scene : scene_intersect ORIGIN ex_dir [mirror_sphere] =
    some (⟨0, 0, -9⟩, ⟨0, 0, 1⟩, mirror_mat) := by
  simp only [scene_intersect, closest_sphere, List.foldl, scene_intersect_step, mirror_ray]
  have h1 : ORIGIN.add (ex_dir.mul 9) = ⟨0, 0, -9⟩ := by
    simp only [ORIGIN, ex_dir, Vec3.add, Vec3.mul]
    norm_num
  rw [h1]
  have h2 : (Vec3.sub ⟨0, 0, -9⟩ mirror_sphere.center).normalize = ⟨0, 0, 1⟩ := by
    simp only [mirror_sphere, Vec3.sub, Vec3.normalize, Vec3.norm, Vec3.dot, Vec3.mul]
    norm_num [Real.sqrt_one]
  rw [h2]
  simp [mirror_sphere]

theorem mirror_refl_ray : mirror_sphere.ray_intersect ⟨0, 0, -8.999⟩ ⟨0, 0, 1⟩ = none := by
  simp only [Sphere.ray_intersect, mirror_sphere, Vec3.sub, Vec3.dot]
  norm_num [Real.sqrt_one]

theorem mirror_refl_scene :
    scene_intersect ⟨0, 0, -8.999⟩ ⟨0, 0, 1⟩ [mirror_sphere] = none := by
  simp only [scene_intersect, closest_sphere, List.foldl, scene_intersect_step,
    mirror_refl_ray]

theorem mirror_cast : cast_ray 0 ORIGIN ex_dir [mirror_sphere] [] = BACKGROUND_COLOR := by
  have hd : ¬ (0 : ℕ) > CAST_RAY_DEPTH := by norm_num [CAST_RAY_DEPTH]
  have hd1 : ¬ (1 : ℕ) > CAST_RAY_DEPTH := by norm_num [CAST_RAY_DEPTH]
  have hrec : cast_ray_d CAST_RAY_DEPTH 1 ⟨0, 0, -8.999⟩ ⟨0, 0, 1⟩ [mirror_sphere] [] =
      BACKGROUND_COLOR := by
    rw [cast_ray_d, dif_neg hd1, mirror_refl_scene]
  have er : ex_dir.reflect ⟨0, 0, 1⟩ = ⟨0, 0, 1⟩ := by
    simp only [Vec3.reflect, Vec3.sub, Vec3.mul, Vec3.dot, ex_dir]
    norm_num
  have erf : ex_dir.refract ⟨0, 0, 1⟩ mirror_mat.refractive_index = ⟨0, 0, -1⟩ := by
    simp only [Vec3.refract, fclamp, ex_dir, Vec3.dot, Vec3.mul, Vec3.add, mirror_mat]
    norm_num [Real.sqrt_one]
  have eho : (Vec3.mk 0 0 (-9)).add ((Vec3.mk 0 0 1).mul EPS) = ⟨0, 0, -8.999⟩ := by
    simp only [Vec3.add, Vec3.mul, EPS]
    norm_num
  rw [cast_ray, cast_ray_d, dif_neg hd, mirror_scene]
  dsimp only
  rw [er, erf]
  have a3 : mirror_mat.albedo 3 = 0 := by norm_num [mirror_mat]
  have a2 : mirror_mat.albedo 2 = 1 := by norm_num [mirror_mat]
  have a1 : mirror_mat.albedo 1 = 0 := by norm_num [mirror_mat]
  have a0 : mirror_mat.albedo 0 = 0 := by norm_num [mirror_mat]
  rw [show ((Vec3.mk 0 0 1).dot ⟨0, 0, 1⟩) = 1 by norm_num [Vec3.dot],
      show ((Vec3.mk 0 0 (-1)).dot ⟨0, 0, 1⟩) = -1 by norm_num [Vec3.dot]]
  rw [if_neg (by norm_num : ¬ (1:ℝ) < 0), if_pos (by norm_num : (-1:ℝ) < 0)]
  rw [eho, hrec, a0, a1, a2, a3, vec_mul_zero]
  simp only [List.foldl_nil]
  simp only [mirror_mat, Vec3.add, Vec3.mul, Vec3.to_pixel, Pixel.to_vec3, BACKGROUND_COLOR]
  norm_num

/-! ## Claim theorems -/

/-- C1: `scene_intersect` returns no hit exactly when no sphere intersects
the ray, and otherwise the winning `(distance, sphere)` pair of the linear
scan satisfies: the sphere is in the scene, `ray_intersect` reports that
distance for it, the returned hit is `origin + direction*distance` with
normal `(hit - sphereCenter).normalize` and the winning sphere's material,
and the winning distance is minimal among all distances reported by
`ray_intersect` over the whole sphere sequence. -/
theorem scene_intersect_correct (orig dir : Vec3) (spheres : List Sphere) :
    (scene_intersect orig dir spheres = none ↔
      ∀ s ∈ spheres, s.ray_intersect orig dir = none) ∧
    (∀ d s, closest_sphere orig dir spheres = some (d, s) →
      s ∈ spheres ∧ s.ray_intersect orig dir = some d ∧
      scene_intersect orig dir spheres =
        some (orig.add (dir.mul d),
          ((orig.add (dir.mul d)).sub s.center).normalize, s.material) ∧
      ∀ s' ∈ spheres, ∀ d', s'.ray_intersect orig dir = some d' → d ≤ d') := by
  constructor
  · rw [scene_intersect_none_iff, closest_sphere_none_iff]
  · intro d s hc
    have hfold : List.foldl (scene_intersect_step orig dir) none spheres = some (d, s) := by
      have h2 := hc
      unfold closest_sphere at h2
      exact h2
    obtain ⟨hm, _, hmin⟩ := closest_loop_some orig dir spheres none d s hfold
    rcases hm with hm | hm
    · exact absurd hm (by simp)
    · refine ⟨hm.1, hm.2, ?_, hmin⟩
      unfold scene_intersect
      rw [hc]

/-- Witness for C1: one-sphere scene hit at distance 4. -/
theorem scene_intersect_correct_witness :
    ex_sphere ∈ [ex_sphere] ∧ ex_sphere.ray_intersect ORIGIN ex_dir = some 4 ∧
    scene_intersect ORIGIN ex_dir [ex_sphere] =
      some (ORIGIN.add (ex_dir.mul 4),
        ((ORIGIN.add (ex_dir.mul 4)).sub ex_sphere.center).normalize,
        ex_sphere.material) := by
  have h := (scene_intersect_correct ORIGIN ex_dir [ex_sphere]).2 4 ex_sphere ex_closest
  exact ⟨h.1, h.2.1, h.2.2.1⟩

/-- C2: for a unit direction, `ray_intersect` returns the nearest
non-negative root of the sphere equation along the ray (a root at
parameter exactly 0 counts, since the source compares with `>= 0.0`), and
returns `none` exactly when no non-negative root exists — which happens
when the squared perpendicular distance exceeds the squared radius or when
both roots are negative. -/
theorem ray_intersect_correct (s : Sphere) (orig dir : Vec3) (hdir : dir.dot dir = 1) :
    (∀ t, s.ray_intersect orig dir = some t →
       0 ≤ t ∧ sphere_hit_at s orig dir t ∧
       ∀ u, 0 ≤ u → sphere_hit_at s orig dir u → t ≤ u) ∧
    (s.ray_intersect orig dir = none →
       ∀ u, 0 ≤ u → ¬ sphere_hit_at s orig dir u) := by
  have hiff := sphere_hit_at_iff s orig dir hdir
  unfold Sphere.ray_intersect
  dsimp only
  set l := s.center.sub orig with hl
  set tca := l.dot dir with htca
  set d2 := l.dot l - tca * tca with hd2def
  set r2 := s.radius * s.radius with hr2def
  by_cases hmiss : d2 > r2
  · rw [if_pos hmiss]
    constructor
    · intro t ht
      exact absurd ht (by simp)
    · intro _ u hu hhit
      rw [hiff u] at hhit
      nlinarith [sq_nonneg (u - tca)]
  · rw [if_neg hmiss]
    have hd2r2 : d2 ≤ r2 := le_of_not_lt hmiss
    have hthc2 : Real.sqrt (r2 - d2) ^ 2 = r2 - d2 := Real.sq_sqrt (by linarith)
    have hthc0 : (0:ℝ) ≤ Real.sqrt (r2 - d2) := Real.sqrt_nonneg _
    set thc := Real.sqrt (r2 - d2) with hthcdef
    have hroots : ∀ u, sphere_hit_at s orig dir u → u = tca - thc ∨ u = tca + thc := by
      intro u hu
      rw [hiff u] at hu
      have hfac : (u - (tca - thc)) * (u - (tca + thc)) = 0 := by
        linear_combination hu - hthc2
      rcases mul_eq_zero.mp hfac with h | h
      · left; linarith
      · right; linarith
    have hhit_t0 : sphere_hit_at s orig dir (tca - thc) := by
      rw [hiff]
      linear_combination hthc2
    have hhit_t1 : sphere_hit_at s orig dir (tca + thc) := by
      rw [hiff]
      linear_combination hthc2
    by_cases h0 : tca - thc ≥ 0
    · rw [if_pos h0]
      constructor
      · intro t ht
        simp only [Option.some.injEq] at ht
        subst ht
        refine ⟨h0, hhit_t0, ?_⟩
        intro u hu huhit
        rcases hroots u huhit with rfl | rfl
        · exact le_refl _
        · linarith
      · intro hnone
        exact absurd hnone (by simp)
    · rw [if_neg h0]
      by_cases h1 : tca + thc ≥ 0
      · rw [if_pos h1]
        constructor
        · intro t ht
          simp only [Option.some.injEq] at ht
          subst ht
          refine ⟨h1, hhit_t1, ?_⟩
          intro u hu huhit
          rcases hroots u huhit with rfl | rfl
          · linarith
          · exact le_refl _
        · intro hnone
          exact absurd hnone (by simp)
      · rw [if_neg h1]
        constructor
        · intro t ht
          exact absurd ht (by simp)
        · intro _ u hu huhit
          rcases hroots u huhit with rfl | rfl
          · linarith
          · linarith

/-- Witness for C2: the example hit at distance 4 is non-negative and lies
on the sphere. -/
theorem ray_intersect_correct_witness :
    (0:ℝ) ≤ 4 ∧ sphere_hit_at ex_sphere ORIGIN ex_dir 4 := by
  have h := (ray_intersect_correct ex_sphere ORIGIN ex_dir ex_dir_unit).1 4 ex_ray
  exact ⟨h.1, h.2.1⟩

/-- C3 (amended): `cast_ray` returns exactly the background color whenever
`depth > CAST_RAY_DEPTH` (the guard returns before any intersection test
or recursion), and, at any depth, whenever the ray intersects no sphere of
the scene.  These conditions are sufficient but not exclusive: see the
counterexample, where a surface hit also shades to the background color. -/
theorem cast_ray_background_cases (depth : ℕ) (orig dir : Vec3)
    (spheres : List Sphere) (lights : List Light) :
    (depth > CAST_RAY_DEPTH → cast_ray depth orig dir spheres lights = BACKGROUND_COLOR) ∧
    (scene_intersect orig dir spheres = none →
      cast_ray depth orig dir spheres lights = BACKGROUND_COLOR) := by
  constructor
  · intro hd
    rw [cast_ray, cast_ray_d, dif_pos hd]
  · intro hsi
    rw [cast_ray]
    conv_lhs => rw [cast_ray_d]
    by_cases hd : depth > CAST_RAY_DEPTH
    · rw [dif_pos hd]
    · rw [dif_neg hd, hsi]

/-- Witness for C3: both background cases at concrete inputs — the depth
guard at depth 3 and an empty scene at depth 0. -/
theorem cast_ray_background_cases_witness :
    cast_ray 3 ORIGIN ex_dir [ex_sphere] [] = BACKGROUND_COLOR ∧
    cast_ray 0 ORIGIN ex_dir [] [] = BACKGROUND_COLOR := by
  constructor
  · exact (cast_ray_background_cases 3 ORIGIN ex_dir [ex_sphere] []).1
      (by norm_num [CAST_RAY_DEPTH])
  · exact (cast_ray_background_cases 0 ORIGIN ex_dir [] []).2 rfl

/-- Counterexample for C3 as stated: the two listed cases are not the only
ones producing the background color.  At depth 0 the ray from the camera
hits the purely reflective `mirror_sphere` (so neither case applies), yet
the shaded result is exactly `BACKGROUND_COLOR`, because the reflected ray
escapes the scene and the mirror albedo copies its color through. -/
theorem cast_ray_background_not_exclusive :
    ¬ (0 : ℕ) > CAST_RAY_DEPTH ∧
    scene_intersect ORIGIN ex_dir [mirror_sphere] ≠ none ∧
    cast_ray 0 ORIGIN ex_dir [mirror_sphere] [] = BACKGROUND_COLOR := by
  refine ⟨by norm_num [CAST_RAY_DEPTH], ?_, mirror_cast⟩
  rw [mirror_scene]
  simp

/-- C4: in the Phong accumulation, a light whose shadow ray (cast from the
perturbed origin chosen by the sign of `dot(lightDir, normal)`) hits some
sphere strictly closer than the light contributes nothing to either sum,
and a light with clear line of sight adds `intensity * max(lnp, 0)` to the
diffuse sum and `intensity * max(dot(reflect(lightDir, normal), dir), 0) ^
specularExponent` to the specular sum. -/
theorem shade_step_occlusion (spheres : List Sphere)
    (dir hit normal hit_inside hit_outside : Vec3) (se : ℝ) (acc : ℝ × ℝ)
    (light : Light) (light_vec light_dir shadow_orig : Vec3)
    (hlv : light_vec = light.position.sub hit)
    (hld : light_dir = light_vec.normalize)
    (hso : shadow_orig = if light_dir.dot normal < 0 then hit_inside else hit_outside) :
    (∀ sh n m, scene_intersect shadow_orig light_dir spheres = some (sh, n, m) →
       light_vec.norm > (sh.sub shadow_orig).norm →
       shade_step spheres dir hit normal hit_inside hit_outside se acc light = acc) ∧
    ((∀ sh n m, scene_intersect shadow_orig light_dir spheres = some (sh, n, m) →
       light_vec.norm ≤ (sh.sub shadow_orig).norm) →
      shade_step spheres dir hit normal hit_inside hit_outside se acc light =
        (acc.1 + light.intensity * max (light_dir.dot normal) 0,
         acc.2 + light.intensity *
           Real.rpow (max ((light_dir.reflect normal).dot dir) 0) se)) := by
  subst hlv
  subst hld
  subst hso
  unfold shade_step
  dsimp only
  cases hsc : scene_intersect
      (if ((light.position.sub hit).normalize.dot normal) < 0 then hit_inside
        else hit_outside)
      ((light.position.sub hit).normalize) spheres with
  | none =>
    constructor
    · intro sh n m hsome
      exact absurd hsome (by simp)
    · intro _
      rfl
  | some p =>
    obtain ⟨sh0, n0, m0⟩ := p
    dsimp only
    constructor
    · intro sh n m hsome hgt
      simp only [Option.some.injEq, Prod.mk.injEq] at hsome
      obtain ⟨rfl, rfl, rfl⟩ := hsome
      rw [if_pos hgt]
    · intro hle
      have h := hle sh0 n0 m0 rfl
      rw [if_neg (not_lt.mpr h)]

/-- Witness for C4: with an empty scene (no occluders) the light straight
above the hit adds exactly its diffuse and specular contributions. -/
theorem shade_step_occlusion_witness :
    shade_step [] ex_dir ORIGIN ⟨0, 0, 1⟩ ⟨0, 0, 0⟩ ⟨0, 0, 0⟩ 2 (0, 0) ex_light = (1, 1) := by
  have h := (shade_step_occlusion [] ex_dir ORIGIN ⟨0, 0, 1⟩ ⟨0, 0, 0⟩ ⟨0, 0, 0⟩ 2 (0, 0)
      ex_light _ _ _ rfl rfl rfl).2
      (by
        intro sh n m hsome
        exact absurd hsome (by simp [scene_intersect, closest_sphere]))
  rw [h]
  have hsub : ex_light.position.sub ORIGIN = ⟨0, 0, 5⟩ := by
    simp only [ex_light, ORIGIN, Vec3.sub]
    norm_num
  have hnrm : (Vec3.mk 0 0 5).normalize = ⟨0, 0, 1⟩ := by
    simp only [Vec3.normalize, Vec3.norm, Vec3.dot, Vec3.mul]
    rw [show (0 * 0 + 0 * 0 + 5 * 5 : ℝ) = 5 ^ 2 by norm_num,
      Real.sqrt_sq (by norm_num : (0:ℝ) ≤ 5)]
    norm_num
  rw [hsub, hnrm]
  have hrefl : (Vec3.mk 0 0 1).reflect ⟨0, 0, 1⟩ = ⟨0, 0, -1⟩ := by
    simp only [Vec3.reflect, Vec3.sub, Vec3.mul, Vec3.dot]
    norm_num
  rw [hrefl]
  have hd1 : (Vec3.mk 0 0 1).dot ⟨0, 0, 1⟩ = 1 := by norm_num [Vec3.dot]
  have hd2 : (Vec3.mk 0 0 (-1)).dot ex_dir = 1 := by norm_num [Vec3.dot, ex_dir]
  rw [hd1, hd2]
  have hmax : max (1:ℝ) 0 = 1 := by norm_num
  rw [hmax]
  have hrpow : Real.rpow 1 2 = 1 := Real.one_rpow 2
  rw [hrpow]
  norm_num [ex_light]

/-- C5: on a surface hit within the depth budget, the color `cast_ray`
returns is exactly `diffuseColor*(dli*albedo0) + white*(sli*albedo1) +
reflectColor*albedo2 + refractColor*albedo3`, where the reflect and
refract colors are the recursive casts at `depth + 1` and `(dli, sli)` is
the Phong accumulation over the lights; no clamping is applied to the sum
(the pixel keeps the raw real components). -/
theorem cast_ray_hit_color_formula (depth : ℕ) (orig dir : Vec3)
    (spheres : List Sphere) (lights : List Light) (hit normal : Vec3)
    (material : Material) (hdepth : ¬ depth > CAST_RAY_DEPTH)
    (hsi : scene_intersect orig dir spheres = some (hit, normal, material)) :
    cast_ray depth orig dir spheres lights =
      (let perturb := normal.mul EPS
       let hit_outside := hit.add perturb
       let hit_inside := hit.sub perturb
       let reflect_dir := dir.reflect normal
       let reflect_orig := if reflect_dir.dot normal < 0 then hit_inside else hit_outside
       let reflect_color :=
         (cast_ray (depth + 1) reflect_orig reflect_dir spheres lights).to_vec3
       let refract_dir := dir.refract normal material.refractive_index
       let refract_orig := if refract_dir.dot normal < 0 then hit_inside else hit_outside
       let refract_color :=
         (cast_ray (depth + 1) refract_orig refract_dir spheres lights).to_vec3
       let s := lights.foldl
         (shade_step spheres dir hit normal hit_inside hit_outside
           material.specular_exponent) (0, 0)
       ((((material.diffuse_color.mul (s.1 * material.albedo 0)).add
           ((Vec3.mk 1 1 1).mul (s.2 * material.albedo 1))).add
           (reflect_color.mul (material.albedo 2))).add
           (refract_color.mul (material.albedo 3))).to_pixel) := by
  simp only [cast_ray]
  conv_lhs => rw [cast_ray_d]
  rw [dif_neg hdepth, hsi]

/-- Witness for C5: the surface-hit formula instantiated at the concrete
one-sphere scene. -/
theorem cast_ray_hit_color_formula_witness :
    cast_ray 0 ORIGIN ex_dir [ex_sphere] [] =
      (let perturb := (Vec3.mk 0 0 1).mul EPS
       let hit_outside := (Vec3.mk 0 0 (-4)).add perturb
       let hit_inside := (Vec3.mk 0 0 (-4)).sub perturb
       let reflect_dir := ex_dir.reflect ⟨0, 0, 1⟩
       let reflect_orig :=
         if reflect_dir.dot ⟨0, 0, 1⟩ < 0 then hit_inside else hit_outside
       let reflect_color :=
         (cast_ray 1 reflect_orig reflect_dir [ex_sphere] []).to_vec3
       let refract_dir := ex_dir.refract ⟨0, 0, 1⟩ ex_mat.refractive_index
       let refract_orig :=
         if refract_dir.dot ⟨0, 0, 1⟩ < 0 then hit_inside else hit_outside
       let refract_color :=
         (cast_ray 1 refract_orig refract_dir [ex_sphere] []).to_vec3
       let s := List.foldl
         (shade_step [ex_sphere] ex_dir ⟨0, 0, -4⟩ ⟨0, 0, 1⟩ hit_inside hit_outside
           ex_mat.specular_exponent) (0, 0) []
       ((((ex_mat.diffuse_color.mul (s.1 * ex_mat.albedo 0)).add
           ((Vec3.mk 1 1 1).mul (s.2 * ex_mat.albedo 1))).add
           (reflect_color.mul (ex_mat.albedo 2))).add
           (refract_color.mul (ex_mat.albedo 3))).to_pixel) := by
  exact cast_ray_hit_color_formula 0 ORIGIN ex_dir [ex_sphere] [] ⟨0, 0, -4⟩ ⟨0, 0, 1⟩
    ex_mat (by norm_num [CAST_RAY_DEPTH]) ex_scene

/-- C6: `refract` computes `cosI = -clamp(dot(v, normal), -1, 1)`; when
`cosI < 0` it flips `cosI`, negates the normal and uses
`eta = refractiveIndex`, otherwise `eta = 1/refractiveIndex`; with
`k = 1 - eta^2*(1 - cosI^2)` it returns the zero-vector sentinel when
`k < 0` (total internal reflection) and
`v*eta + normal*(eta*cosI - sqrt(k))` otherwise (with the possibly flipped
normal). -/
theorem refract_cases (v normal : Vec3) (refractive_index : ℝ)
    (cosi0 cosi : ℝ) (n : Vec3) (eta k : ℝ)
    (hcosi0 : cosi0 = -(fclamp (v.dot normal) (-1) 1))
    (hcosi : cosi = if cosi0 < 0 then -cosi0 else cosi0)
    (hn : n = if cosi0 < 0 then normal.mul (-1) else normal)
    (heta : eta = if cosi0 < 0 then refractive_index else 1 / refractive_index)
    (hk : k = 1 - eta ^ 2 * (1 - cosi ^ 2)) :
    (k < 0 → v.refract normal refractive_index = ⟨0, 0, 0⟩) ∧
    (¬ k < 0 → v.refract normal refractive_index =
      (v.mul eta).add (n.mul (eta * cosi - Real.sqrt k))) := by
  subst hcosi0
  subst hcosi
  subst hn
  subst heta
  subst hk
  unfold Vec3.refract
  dsimp only
  constructor
  · intro hlt
    rw [if_pos hlt]
  · intro hge
    rw [if_neg hge]

/-- Witness for C6: total internal reflection at a grazing ray with
relative index `0.5` (so `eta = 2` and `k = -3 < 0`) yields the zero
vector. -/
theorem refract_cases_witness :
    Vec3.refract ⟨1, 0, 0⟩ ⟨0, 0, 1⟩ 0.5 = ⟨0, 0, 0⟩ := by
  refine (refract_cases ⟨1, 0, 0⟩ ⟨0, 0, 1⟩ 0.5 _ _ _ _ _ rfl rfl rfl rfl rfl).1 ?_
  norm_num [fclamp, Vec3.dot, max_def, min_def]

/-- C7 (amended): each color channel is converted to its output byte by
Rust's native float-to-integer `as` cast of `value*255`, which truncates
toward zero and then saturates to the target range `[0, 255]`; no clamp is
applied to the color value beforehand, so for `value*255` in `[0, 256)`
the byte is `floor(value*255)`, while a channel value at or above 1.0
saturates at 255 — it does not wrap. -/
theorem byte_conversion_saturating (x : ℝ) :
    (0 ≤ x * 255 → x * 255 < 256 → f64_as_u8 (x * 255) = ⌊x * 255⌋) ∧
    (1 ≤ x → f64_as_u8 (x * 255) = 255) := by
  constructor
  · intro h0 h256
    unfold f64_as_u8 rust_trunc
    rw [if_pos h0]
    have hf0 : (0:ℤ) ≤ ⌊x * 255⌋ := Int.floor_nonneg.mpr h0
    have hf255 : ⌊x * 255⌋ < 256 := by
      rw [Int.floor_lt]
      push_cast
      exact h256
    omega
  · intro h1
    have h255 : (255:ℝ) ≤ x * 255 := by nlinarith
    unfold f64_as_u8 rust_trunc
    rw [if_pos (le_trans (by norm_num) h255)]
    have : (255:ℤ) ≤ ⌊x * 255⌋ := Int.le_floor.mpr (by push_cast; exact h255)
    omega

/-- Witness for C7 (amended): an in-range channel maps through the floor
(0.5 ↦ 127) and an out-of-range channel saturates (2.0 ↦ 255). -/
theorem byte_conversion_saturating_witness :
    f64_as_u8 ((0.5 : ℝ) * 255) = 127 ∧ f64_as_u8 ((2 : ℝ) * 255) = 255 := by
  constructor
  · have h := (byte_conversion_saturating 0.5).1 (by norm_num) (by norm_num)
    rw [h]
    norm_num
  · exact (byte_conversion_saturating 2).2 (by norm_num)

/-- Counterexample for C7 as stated: the claim says a channel above 1.0
wraps/truncates rather than saturating at 255, but Rust `as` casts
saturate.  At channel value 2.0 the code produces byte 255, whereas the
unclamped `floor(2*255) = 510` and its wrapped value `510 mod 256 = 254`
both differ from 255. -/
theorem byte_conversion_wrap_counterexample :
    (Pixel.mk 2 2 2).to_bytes = (255, 255, 255) ∧
    (⌊(2 : ℝ) * 255⌋ : ℤ) = 510 ∧ ((510 : ℤ) % 256 = 254) ∧ ((255 : ℤ) ≠ 510) := by
  refine ⟨?_, by norm_num, by norm_num, by norm_num⟩
  unfold Pixel.to_bytes f64_as_u8 rust_trunc
  norm_num

/-- C8: `cast_ray` terminates for every input.  Both recursive calls use
`depth + 1`, and the `depth > CAST_RAY_DEPTH` guard is reached after at
most `CAST_RAY_DEPTH + 1` recursive levels, so a fuel budget of
`CAST_RAY_DEPTH + 2 - depth` call levels always suffices: the fuel-indexed
evaluator never runs out and computes the total function `cast_ray`
(which Lean itself accepts by well-founded recursion on the remaining
depth budget, with the depth cap as the only guard). -/
theorem cast_ray_fuel_terminates :
    ∀ (fuel depth : ℕ) (orig dir : Vec3) (spheres : List Sphere) (lights : List Light),
      0 < fuel → CAST_RAY_DEPTH + 2 - depth ≤ fuel →
      cast_ray_fuel fuel depth orig dir spheres lights =
        some (cast_ray depth orig dir spheres lights) := by
  intro fuel
  induction fuel with
  | zero =>
    intro depth orig dir spheres lights h0 _
    exact absurd h0 (lt_irrefl 0)
  | succ n ih =>
    intro depth orig dir spheres lights _ hfuel
    rw [cast_ray]
    conv_rhs => rw [cast_ray_d]
    unfold cast_ray_fuel
    by_cases hd : depth > CAST_RAY_DEPTH
    · rw [if_pos hd, dif_pos hd]
    · rw [if_neg hd, dif_neg hd]
      cases hsi : scene_intersect orig dir spheres with
      | none => rfl
      | some v =>
        obtain ⟨hit, normal, material⟩ := v
        dsimp only
        have hn : 0 < n := by omega
        have hm : CAST_RAY_DEPTH + 2 - (depth + 1) ≤ n := by omega
        rw [ih (depth + 1) _ _ spheres lights hn hm, ih (depth + 1) _ _ spheres lights hn hm]
        rfl

/-- Witness for C8: from depth 0, fuel `CAST_RAY_DEPTH + 2 = 4` suffices
on a concrete scene. -/
theorem cast_ray_fuel_terminates_witness :
    cast_ray_fuel 4 0 ORIGIN ex_dir [ex_sphere] [] =
      some (cast_ray 0 ORIGIN ex_dir [ex_sphere] []) := by
  exact cast_ray_fuel_terminates 4 0 ORIGIN ex_dir [ex_sphere] []
    (by norm_num) (by norm_num [CAST_RAY_DEPTH])

/-- C9: in a fully diffuse scene (every material has reflectance weight
`albedo[2] = 0` and refractance weight `albedo[3] = 0`), the recursive
reflect and refract terms are multiplied by zero and contribute nothing,
so the color returned is independent of the depth bound for any bound that
permits the initial evaluation. -/
theorem cast_ray_depth_independent (spheres : List Sphere) (lights : List Light)
    (hdiff : ∀ s ∈ spheres, s.material.albedo 2 = 0 ∧ s.material.albedo 3 = 0)
    (m1 m2 depth : ℕ) (orig dir : Vec3) (h1 : depth ≤ m1) (h2 : depth ≤ m2) :
    cast_ray_d m1 depth orig dir spheres lights =
      cast_ray_d m2 depth orig dir spheres lights := by
  conv_lhs => rw [cast_ray_d]
  conv_rhs => rw [cast_ray_d]
  rw [dif_neg (by omega : ¬ depth > m1), dif_neg (by omega : ¬ depth > m2)]
  cases hsi : scene_intersect orig dir spheres with
  | none => rfl
  | some v =>
    obtain ⟨hit, normal, material⟩ := v
    obtain ⟨s, hsmem, hmat⟩ :=
      scene_intersect_material_mem orig dir spheres hit normal material hsi
    obtain ⟨ha2, ha3⟩ := hdiff s hsmem
    dsimp only
    rw [hmat, ha2, ha3]
    simp only [vec_mul_zero]

/-- Witness for C9: the diffuse one-sphere scene shades identically under
depth bounds 3 and 7. -/
theorem cast_ray_depth_independent_witness :
    cast_ray_d 3 0 ORIGIN ex_dir [ex_sphere] [] =
      cast_ray_d 7 0 ORIGIN ex_dir [ex_sphere] [] := by
  refine cast_ray_depth_independent [ex_sphere] [] ?_ 3 7 0 ORIGIN ex_dir
    (by norm_num) (by norm_num)
  intro s hs
  rw [List.mem_singleton] at hs
  subst hs
  constructor
  · norm_num [ex_sphere, ex_mat]
  · norm_num [ex_sphere, ex_mat]

theorem foldl_keeps_farther (orig dir : Vec3) (d : ℝ) :
    ∀ (l : List Sphere) (acc : Option (ℝ × Sphere)),
      (acc = none ∨ ∃ d0 s0, acc = some (d0, s0) ∧ d < d0) →
      (∀ s' ∈ l, ∀ d', s'.ray_intersect orig dir = some d' → d < d') →
      (List.foldl (scene_intersect_step orig dir) acc l = none ∨
        ∃ d0 s0, List.foldl (scene_intersect_step orig dir) acc l = some (d0, s0) ∧
          d < d0) := by
  intro l
  induction l with
  | nil =>
    intro acc hacc _
    simpa using hacc
  | cons a l ih =>
    intro acc hacc hall
    rw [List.foldl_cons]
    refine ih _ ?_ (fun s' hs' => hall s' (List.mem_cons_of_mem a hs'))
    cases ha : a.ray_intersect orig dir with
    | none =>
      rw [step_eq_of_none orig dir acc a ha]
      exact hacc
    | some da =>
      have hda : d < da := hall a (List.mem_cons_self a l) da ha
      rcases hacc with rfl | ⟨d0, s0, rfl, hlt⟩
      · rw [step_of_some_none orig dir a da ha]
        exact Or.inr ⟨da, a, rfl, hda⟩
      · rw [step_of_some_some orig dir a da d0 s0 ha]
        by_cases hcase : da < d0
        · rw [if_pos hcase]
          exact Or.inr ⟨da, a, rfl, hda⟩
        · rw [if_neg hcase]
          exact Or.inr ⟨d0, s0, rfl, hlt⟩

theorem foldl_keeps_winner (orig dir : Vec3) (d : ℝ) (s : Sphere) :
    ∀ (l : List Sphere),
      (∀ s' ∈ l, ∀ d', s'.ray_intersect orig dir = some d' → d ≤ d') →
      List.foldl (scene_intersect_step orig dir) (some (d, s)) l = some (d, s) := by
  intro l
  induction l with
  | nil => intro _; rfl
  | cons a l ih =>
    intro hall
    rw [List.foldl_cons]
    have hstep : scene_intersect_step orig dir (some (d, s)) a = some (d, s) := by
      cases ha : a.ray_intersect orig dir with
      | none => exact step_eq_of_none orig dir _ a ha
      | some da =>
        rw [step_of_some_some orig dir a da d s ha,
          if_neg (not_lt.mpr (hall a (List.mem_cons_self a l) da ha))]
    rw [hstep]
    exact ih (fun s' hs' => hall s' (List.mem_cons_of_mem a hs'))

/-- C10: the replacement test in the scan is strict (`distance <
old_distance`), so when a sphere `s` hits at distance `d`, every sphere
before it hits strictly farther, and every sphere after it hits no closer
(equality allowed), `scene_intersect` returns the hit built from `s` —
i.e. on exact distance ties the sphere occurring earliest in the sequence
wins and a later equidistant sphere never replaces it. -/
theorem scene_intersect_tie_first (orig dir : Vec3) (l1 l2 : List Sphere)
    (s : Sphere) (d : ℝ)
    (hs : s.ray_intersect orig dir = some d)
    (h1 : ∀ s' ∈ l1, ∀ d', s'.ray_intersect orig dir = some d' → d < d')
    (h2 : ∀ s' ∈ l2, ∀ d', s'.ray_intersect orig dir = some d' → d ≤ d') :
    scene_intersect orig dir (l1 ++ s :: l2) =
      some (orig.add (dir.mul d),
        ((orig.add (dir.mul d)).sub s.center).normalize, s.material) := by
  have hacc := foldl_keeps_farther orig dir d l1 none (Or.inl rfl) h1
  have hclosest : closest_sphere orig dir (l1 ++ s :: l2) = some (d, s) := by
    unfold closest_sphere
    rw [List.foldl_append, List.foldl_cons]
    rcases hacc with hacc | ⟨d0, s0, hacc, hlt⟩
    · rw [hacc, step_of_some_none orig dir s d hs]
      exact foldl_keeps_winner orig dir d s l2 h2
    · rw [hacc, step_of_some_some orig dir s d d0 s0 hs, if_pos hlt]
      exact foldl_keeps_winner orig dir d s l2 h2
  unfold scene_intersect
  rw [hclosest]

/-- Witness for C10: two coincident spheres hit at exactly distance 4; the
first one in the list provides the returned material even though the
second ties, and the two materials differ. -/
theorem scene_intersect_tie_first_witness :
    scene_intersect ORIGIN ex_dir [ex_sphere, ex_sphere2] =
      some (ORIGIN.add (ex_dir.mul 4),
        ((ORIGIN.add (ex_dir.mul 4)).sub ex_sphere.center).normalize,
        ex_sphere.material) ∧
    ex_sphere.material ≠ ex_sphere2.material := by
  constructor
  · have h := scene_intersect_tie_first ORIGIN ex_dir [] [ex_sphere2] ex_sphere 4
      ex_ray
      (by intro s' hs'; simp at hs')
      (by
        intro s' hs' d' hd'
        rw [List.mem_singleton] at hs'
        subst hs'
        rw [ex_ray2] at hd'
        simp only [Option.some.injEq] at hd'
        subst hd'
        exact le_refl _)
    simpa using h
  · intro h
    have hx := congrArg (fun m => m.diffuse_color.x) h
    simp only [ex_sphere, ex_sphere2, ex_mat, ex_mat2] at hx
    norm_num at hx
